import Mathlib

/-!
Shallow embedding of the chat/authorization slice of the user-auth-system
repository: the message entity and its instance methods
(src/server/models/User.js, message schema part), the socket handlers
(src/server/socket/socketHandlers.js) and the REST chat routes
(src/server/routes/chat.js), together with theorems checking the
specification's claims about them.

Identifiers are modelled as `String` (Mongo ObjectIds) and message ids as
`Nat`; timestamps are `Nat` clock values passed explicitly where the source
calls `new Date()` / `Date.now()`.
-/

/-- JS whitespace characters relevant to `String.prototype.trim` (ASCII part). -/
def isSpaceChar (c : Char) : Bool :=
  c = ' ' || c = '\t' || c = '\n' || c = '\r' || c = '\x0b' || c = '\x0c'

/-- Model of `String.prototype.trim`: drop whitespace from both ends. -/
def trimChars (l : List Char) : List Char :=
  ((l.dropWhile isSpaceChar).reverse.dropWhile isSpaceChar).reverse

/-- `content.trim()` of the source, on our string model. -/
def trimStr (s : String) : String :=
  String.mk (trimChars s.data)

/-- `content.length` of the source (character count). -/
def strLen (s : String) : Nat :=
  s.data.length

/-- JS `\w` character class: `[A-Za-z0-9_]`. -/
def isWordChar (c : Char) : Bool :=
  c.isAlphanum || c = '_'

theorem length_dropWhileLe (p : Char → Bool) :
    ∀ l : List Char, (l.dropWhile p).length ≤ l.length := by
  intro l
  induction l with
  | nil => simp [List.dropWhile]
  | cons c rest ih =>
    by_cases h : p c
    · simp only [List.dropWhile, h]
      exact Nat.le_succ_of_le ih
    · simp [List.dropWhile, h]

theorem trimChars_length_le (l : List Char) : (trimChars l).length ≤ l.length := by
  unfold trimChars
  calc (((l.dropWhile isSpaceChar).reverse.dropWhile isSpaceChar).reverse).length
      = ((l.dropWhile isSpaceChar).reverse.dropWhile isSpaceChar).length := by
        exact List.length_reverse _
    _ ≤ (l.dropWhile isSpaceChar).reverse.length := length_dropWhileLe _ _
    _ = (l.dropWhile isSpaceChar).length := List.length_reverse _
    _ ≤ l.length := length_dropWhileLe _ _

theorem strLen_trimStr_le (s : String) : strLen (trimStr s) ≤ strLen s :=
  trimChars_length_le s.data

/-- Mention extraction of the `pre('save')` hook: the matches of the global
regex `@(\w+)` over the content, collected in order. The fuel argument is
only there to make the recursion structural; every step consumes at least
one character, so running it with the input's length as fuel (as
`extractMentions` does) never exhausts it. -/
def extractMentionsFuel : Nat → List Char → List String
  | 0, _ => []
  | _ + 1, [] => []
  | fuel + 1, c :: rest =>
    if c = '@' then
      let tok := rest.takeWhile isWordChar
      if tok.isEmpty then extractMentionsFuel fuel rest
      else String.mk tok :: extractMentionsFuel fuel (rest.dropWhile isWordChar)
    else extractMentionsFuel fuel rest

def extractMentions (s : String) : List String :=
  extractMentionsFuel s.data.length s.data

theorem extractMentionsFuel_nil_of_no_at :
    ∀ (fuel : Nat) (l : List Char), l.contains '@' = false →
      extractMentionsFuel fuel l = [] := by
  intro fuel
  induction fuel with
  | zero => intro l _; rfl
  | succ n ih =>
    intro l h
    cases l with
    | nil => rfl
    | cons c rest =>
      simp only [List.contains_cons, Bool.or_eq_false_iff, beq_eq_false_iff_ne] at h
      rw [extractMentionsFuel]
      simp only [if_neg (Ne.symm h.1)]
      exact ih rest h.2

/-- A reaction entry of the message schema. -/
structure Reaction where
  user : String
  emoji : String
  createdAt : Nat
deriving Repr, DecidableEq

/-- The Message document (message schema of src/server/models/User.js). -/
structure Message where
  id : Nat
  user : String
  content : String
  messageType : String
  isEdited : Bool
  editedAt : Option Nat
  isDeleted : Bool
  deletedAt : Option Nat
  reactions : List Reaction
  replyTo : Option Nat
  mentions : List String
  createdAt : Nat
deriving Repr, DecidableEq

/-- The `messageType` enum of the schema:
`enum: ['text', 'image', 'file', 'system']`. -/
def validMessageTypes : List String :=
  ["text", "image", "file", "system"]

/-- Mongoose schema validation run on save: `messageType` must be in the
enum, `content` is required (non-empty) with `maxlength: 1000`. -/
def validateMessage (m : Message) : Bool :=
  validMessageTypes.contains m.messageType
    && (m.content != "")
    && decide (strLen m.content ≤ 1000)

def isHexChar (c : Char) : Bool :=
  c.isDigit || (decide ('a' ≤ c) && decide (c ≤ 'f'))
    || (decide ('A' ≤ c) && decide (c ≤ 'F'))

/-- Whether mongoose can cast a string to an ObjectId: a 24-character hex
string, or any 12-character string (taken as 12 raw bytes). -/
def castableObjectId (s : String) : Bool :=
  (decide (strLen s = 24) && s.data.all isHexChar) || decide (strLen s = 12)

/-- Effect of assigning the extracted tokens to the `mentions` path, whose
schema type is an array of ObjectId refs: the assignment casts eagerly, so
when every token is castable the array is stored (an ObjectId is
represented here by the source string it was cast from), and when any
token fails the cast the assignment is dropped and the path keeps its
previous value. -/
def castMentions (tokens old : List String) : List String :=
  if tokens.all castableObjectId then tokens else old

/-- The `pre('save')` hook: when content was modified, extract the @-word
tokens and assign them to `mentions`. Validation runs before this
user-defined hook, and the assignment itself goes through the ObjectId
cast of the `mentions` schema path (`castMentions`), so uncastable token
lists never reach the stored document. -/
def presaveMentions (m : Message) : Message :=
  { m with mentions := castMentions (extractMentions m.content) m.mentions }

/-- `Message.findById`: first stored document with the given id. -/
def findById (store : List Message) (mid : Nat) : Option Message :=
  store.find? (fun m => m.id == mid)

/-- Saving a new document: run the pre-save hook, validate, append. -/
def saveNew (store : List Message) (m : Message) : Except String (List Message) :=
  let m' := presaveMentions m
  if validateMessage m' then Except.ok (store ++ [m'])
  else Except.error "ValidationError"

/-- Saving an already-stored document after a mutation: validate, then
write the document back in place of every stored document with its id. -/
def saveUpdated (store : List Message) (m : Message) : Except String (List Message) :=
  if validateMessage m then
    Except.ok (store.map (fun x => if x.id == m.id then m else x))
  else Except.error "ValidationError"

/-- `messageSchema.methods.addReaction`: drop any reaction of this user,
then push the new one. -/
def Message.addReaction (m : Message) (userId emoji : String) (now : Nat) : Message :=
  { m with reactions :=
      m.reactions.filter (fun r => r.user != userId) ++ [⟨userId, emoji, now⟩] }

/-- `messageSchema.methods.removeReaction`. -/
def Message.removeReaction (m : Message) (userId : String) : Message :=
  { m with reactions := m.reactions.filter (fun r => r.user != userId) }

/-- `messageSchema.methods.softDelete`: sets the flag and a fresh timestamp. -/
def Message.softDelete (m : Message) (now : Nat) : Message :=
  { m with isDeleted := true, deletedAt := some now }

/-- `messageSchema.methods.editMessage` followed by the pre-save hook
(content is modified, so mentions are recomputed). -/
def Message.editMessage (m : Message) (newContent : String) (now : Nat) : Message :=
  presaveMentions { m with content := newContent, isEdited := true, editedAt := some now }

/-- Descending insertion by `createdAt`, modelling `sort({ createdAt: -1 })`. -/
def insertDesc (m : Message) : List Message → List Message
  | [] => [m]
  | x :: xs => if x.createdAt ≤ m.createdAt then m :: x :: xs else x :: insertDesc m xs

def sortDesc : List Message → List Message
  | [] => []
  | x :: xs => insertDesc x (sortDesc xs)

/-- `messageSchema.statics.getMessages(page, limit)`: non-deleted messages,
newest first, skip `(page-1)*limit`, take `limit`. -/
def getMessagesQuery (store : List Message) (page limit : Nat) : List Message :=
  ((sortDesc (store.filter (fun m => !m.isDeleted))).drop ((page - 1) * limit)).take limit

/-- Whether `needle` occurs as a contiguous run inside `hay`. -/
def containsSeq (needle : List Char) : List Char → Bool
  | [] => needle.isEmpty
  | c :: rest => needle.isPrefixOf (c :: rest) || containsSeq needle rest

/-- Case-insensitive substring match, modelling `$regex` with `$options: 'i'`. -/
def containsCI (s q : String) : Bool :=
  containsSeq (q.data.map Char.toLower) (s.data.map Char.toLower)

/-- The filter of `messageSchema.statics.searchMessages`. -/
def matchesSearch (m : Message) (q : String) (userId : Option String) : Bool :=
  containsCI m.content q
    && (match userId with | none => true | some u => m.user == u)

/-- `messageSchema.statics.searchMessages`: non-deleted matches, newest
first, capped at 20. -/
def searchMessages (store : List Message) (q : String) (userId : Option String) :
    List Message :=
  (sortDesc (store.filter (fun m => !m.isDeleted && matchesSearch m q userId))).take 20

/-- The slice of the User document read by this core. -/
structure UserRec where
  id : String
  name : String
  role : String
  isActive : Bool
deriving Repr, DecidableEq

def findUserById (users : List UserRec) (uid : String) : Option UserRec :=
  users.find? (fun u => u.id == uid)

/-- Outcome of presenting a bearer credential to `verifyToken` (the JWT
library itself is an external collaborator): the token is absent, fails
verification (malformed, expired or bad signature, so `verifyToken`
returns null), or verifies and carries the embedded subject id. -/
inductive Credential where
  | absent : Credential
  | malformed : Credential
  | signed (userId : String) : Credential
deriving Repr, DecidableEq

/-- The `io.use` socket authentication middleware of socketHandlers.js. -/
def socketAuth (users : List UserRec) (c : Credential) : Except String UserRec :=
  match c with
  | Credential.absent => Except.error "Authentication token required"
  | Credential.malformed => Except.error "Invalid token"
  | Credential.signed uid =>
    match findUserById users uid with
    | none => Except.error "User not found or inactive"
    | some u => if u.isActive then Except.ok u else Except.error "User not found or inactive"

/-- JS `Map.get`. -/
def mapGet : List (String × String) → String → Option String
  | [], _ => none
  | p :: rest, k => if p.1 = k then some p.2 else mapGet rest k

/-- JS `Map.set`: overwrite in place, otherwise append. -/
def mapSet : List (String × String) → String → String → List (String × String)
  | [], k, v => [(k, v)]
  | p :: rest, k, v => if p.1 = k then (k, v) :: rest else p :: mapSet rest k v

/-- JS `Map.delete`. -/
def mapDelete : List (String × String) → String → List (String × String)
  | [], _ => []
  | p :: rest, k => if p.1 = k then mapDelete rest k else p :: mapDelete rest k

/-- The Session Registry: `connectedUsers` (userId -> socketId) and
`userSockets` (socketId -> userId). -/
structure Registry where
  connectedUsers : List (String × String)
  userSockets : List (String × String)
deriving Repr, DecidableEq

/-- The registry writes performed by the connection handler. -/
def bindConnection (reg : Registry) (uid sid : String) : Registry :=
  ⟨mapSet reg.connectedUsers uid sid, mapSet reg.userSockets sid uid⟩

/-- The registry writes performed by the disconnect handler: delete keyed by
the closure's user id in `connectedUsers` and by the socket id in
`userSockets`. -/
def disconnectConnection (reg : Registry) (uid sid : String) : Registry :=
  ⟨mapDelete reg.connectedUsers uid, mapDelete reg.userSockets sid⟩

def lookupUser (reg : Registry) (uid : String) : Option String :=
  mapGet reg.connectedUsers uid

/-- Observable events emitted by the handlers. -/
inductive Event where
  | newMessage (id : Nat) : Event
  | messageEdited (id : Nat) : Event
  | messageDeleted (id : Nat) : Event
  | reactionAdded (id : Nat) : Event
  | reactionRemoved (id : Nat) : Event
  | messageSent (id : Nat) : Event
  | privateMsg (id : Nat) : Event
  | privateMsgSent (id : Nat) : Event
  | errorMsg (s : String) : Event
  | userConnected (userId : String) : Event
  | onlineUsers : Event
deriving Repr, DecidableEq

/-- Result of one socket event handler: the store afterwards, the events
broadcast to the 'general' room, the events emitted back to the
originating socket, and direct emissions to specific socket ids. -/
structure SocketResult where
  store : List Message
  room : List Event
  toSender : List Event
  direct : List (String × Event)
deriving Repr, DecidableEq

/-- Result of a connection attempt: registry afterwards, rooms joined by
the socket, presence broadcasts, and whether the connection was admitted. -/
structure ConnOutcome where
  registry : Registry
  joins : List String
  broadcasts : List Event
  accepted : Bool
deriving Repr, DecidableEq

/-- A connection attempt: the authentication middleware runs first; only
when it admits the socket does the connection handler write the registry,
join the rooms and broadcast presence. -/
def connectionAttempt (users : List UserRec) (reg : Registry) (c : Credential)
    (socketId : String) : ConnOutcome :=
  match socketAuth users c with
  | Except.error _ => ⟨reg, [], [], false⟩
  | Except.ok u =>
    ⟨bindConnection reg u.id socketId,
     ["user_" ++ u.id, "general"],
     [Event.userConnected u.id],
     true⟩

/-- Result of one REST route: store afterwards, HTTP status, and the
`error` field of the failure envelope (none on success). -/
structure RestResult where
  store : List Message
  status : Nat
  error : Option String
deriving Repr, DecidableEq

/-- The fresh message document built by the send handlers. -/
def mkNewMessage (senderId content messageType : String) (replyTo : Option Nat)
    (newId now : Nat) : Message :=
  { id := newId, user := senderId, content := trimStr content,
    messageType := messageType, isEdited := false, editedAt := none,
    isDeleted := false, deletedAt := none, reactions := [],
    replyTo := replyTo, mentions := [], createdAt := now }

/-- The `send_message` socket handler. -/
def sendMessageSocket (store : List Message) (senderId content messageType : String)
    (replyTo : Option Nat) (newId now : Nat) : SocketResult :=
  if strLen (trimStr content) = 0 then
    ⟨store, [], [Event.errorMsg "Message content is required"], []⟩
  else if 1000 < strLen content then
    ⟨store, [], [Event.errorMsg "Message content cannot exceed 1000 characters"], []⟩
  else
    match saveNew store (mkNewMessage senderId content messageType replyTo newId now) with
    | Except.ok store' => ⟨store', [Event.newMessage newId], [Event.messageSent newId], []⟩
    | Except.error _ => ⟨store, [], [Event.errorMsg "Failed to send message"], []⟩

/-- The `POST /messages` REST route. -/
def sendMessageRest (store : List Message) (senderId content messageType : String)
    (replyTo : Option Nat) (newId now : Nat) : RestResult :=
  if strLen (trimStr content) = 0 then ⟨store, 400, some "Validation error"⟩
  else if 1000 < strLen content then ⟨store, 400, some "Validation error"⟩
  else
    match saveNew store (mkNewMessage senderId content messageType replyTo newId now) with
    | Except.ok store' => ⟨store', 201, none⟩
    | Except.error _ => ⟨store, 500, some "Server error"⟩

/-- The `edit_message` socket handler. -/
def editMessageSocket (store : List Message) (u : UserRec) (messageId : Nat)
    (content : String) (now : Nat) : SocketResult :=
  if strLen (trimStr content) = 0 then
    ⟨store, [], [Event.errorMsg "Message content is required"], []⟩
  else if 1000 < strLen content then
    ⟨store, [], [Event.errorMsg "Message content cannot exceed 1000 characters"], []⟩
  else
    match findById store messageId with
    | none => ⟨store, [], [Event.errorMsg "Message not found"], []⟩
    | some msg =>
      if msg.user ≠ u.id ∧ u.role ≠ "admin" then
        ⟨store, [], [Event.errorMsg "You can only edit your own messages"], []⟩
      else
        match saveUpdated store (msg.editMessage (trimStr content) now) with
        | Except.ok store' => ⟨store', [Event.messageEdited messageId], [], []⟩
        | Except.error _ => ⟨store, [], [Event.errorMsg "Failed to edit message"], []⟩

/-- The `PUT /messages/:messageId` REST route. -/
def editMessageRest (store : List Message) (u : UserRec) (messageId : Nat)
    (content : String) (now : Nat) : RestResult :=
  if strLen (trimStr content) = 0 then ⟨store, 400, some "Validation error"⟩
  else if 1000 < strLen content then ⟨store, 400, some "Validation error"⟩
  else
    match findById store messageId with
    | none => ⟨store, 404, some "Message not found"⟩
    | some msg =>
      if msg.user ≠ u.id ∧ u.role ≠ "admin" then ⟨store, 403, some "Access denied"⟩
      else
        match saveUpdated store (msg.editMessage (trimStr content) now) with
        | Except.ok store' => ⟨store', 200, none⟩
        | Except.error _ => ⟨store, 500, some "Server error"⟩

/-- The `delete_message` socket handler. -/
def deleteMessageSocket (store : List Message) (u : UserRec) (messageId now : Nat) :
    SocketResult :=
  match findById store messageId with
  | none => ⟨store, [], [Event.errorMsg "Message not found"], []⟩
  | some msg =>
    if msg.user ≠ u.id ∧ u.role ≠ "admin" then
      ⟨store, [], [Event.errorMsg "You can only delete your own messages"], []⟩
    else
      match saveUpdated store (msg.softDelete now) with
      | Except.ok store' => ⟨store', [Event.messageDeleted messageId], [], []⟩
      | Except.error _ => ⟨store, [], [Event.errorMsg "Failed to delete message"], []⟩

/-- The `DELETE /messages/:messageId` REST route. -/
def deleteMessageRest (store : List Message) (u : UserRec) (messageId now : Nat) :
    RestResult :=
  match findById store messageId with
  | none => ⟨store, 404, some "Message not found"⟩
  | some msg =>
    if msg.user ≠ u.id ∧ u.role ≠ "admin" then ⟨store, 403, some "Access denied"⟩
    else
      match saveUpdated store (msg.softDelete now) with
      | Except.ok store' => ⟨store', 200, none⟩
      | Except.error _ => ⟨store, 500, some "Server error"⟩

/-- The `add_reaction` socket handler. -/
def addReactionSocket (store : List Message) (u : UserRec) (messageId : Nat)
    (emoji : String) (now : Nat) : SocketResult :=
  if emoji = "" then ⟨store, [], [Event.errorMsg "Emoji is required"], []⟩
  else
    match findById store messageId with
    | none => ⟨store, [], [Event.errorMsg "Message not found"], []⟩
    | some msg =>
      match saveUpdated store (msg.addReaction u.id emoji now) with
      | Except.ok store' => ⟨store', [Event.reactionAdded messageId], [], []⟩
      | Except.error _ => ⟨store, [], [Event.errorMsg "Failed to add reaction"], []⟩

/-- The `private_message` socket handler: validates content, persists a
message with `messageType: 'private'`, then delivers to the recipient's
registered socket (if any) and echoes a confirmation to the sender. -/
def privateMessageSocket (store : List Message) (connected : List (String × String))
    (senderId recipientId content : String) (newId now : Nat) : SocketResult :=
  if strLen (trimStr content) = 0 then
    ⟨store, [], [Event.errorMsg "Message content is required"], []⟩
  else
    match saveNew store (mkNewMessage senderId content "private" none newId now) with
    | Except.ok store' =>
      let direct :=
        match mapGet connected recipientId with
        | some sid => [(sid, Event.privateMsg newId)]
        | none => []
      ⟨store', [], [Event.privateMsgSent newId], direct⟩
    | Except.error _ =>
      ⟨store, [], [Event.errorMsg "Failed to send private message"], []⟩

/-- `GET /messages` (without search): fetch the page newest-first, then
reverse it so the response is oldest-first. -/
def listMessagesRest (store : List Message) (page limit : Nat) : List Message :=
  (getMessagesQuery store page limit).reverse

theorem mapGet_delete_self (k : String) :
    ∀ m : List (String × String), mapGet (mapDelete m k) k = none := by
  intro m
  induction m with
  | nil => rfl
  | cons p rest ih =>
    by_cases h : p.1 = k
    · simp [mapDelete, h, ih]
    · simp [mapDelete, mapGet, h, ih]

theorem mapGet_delete_ne (k k' : String) (h : k ≠ k') :
    ∀ m : List (String × String), mapGet (mapDelete m k') k = mapGet m k := by
  intro m
  induction m with
  | nil => rfl
  | cons p rest ih =>
    by_cases hp : p.1 = k'
    · have hk : k' ≠ k := Ne.symm h
      simp [mapDelete, mapGet, hp, hk, ih]
    · simp only [mapDelete, if_neg hp, mapGet]
      by_cases hk : p.1 = k
      · simp [hk]
      · simp [hk, ih]

theorem mapGet_set_self (k v : String) :
    ∀ m : List (String × String), mapGet (mapSet m k v) k = some v := by
  intro m
  induction m with
  | nil => simp [mapSet, mapGet]
  | cons p rest ih =>
    by_cases h : p.1 = k
    · simp [mapSet, mapGet, h]
    · simp [mapSet, mapGet, h, ih]

theorem mem_insertDesc (m a : Message) :
    ∀ l : List Message, a ∈ insertDesc m l → a = m ∨ a ∈ l := by
  intro l
  induction l with
  | nil => intro h; simp [insertDesc] at h; exact Or.inl h
  | cons x xs ih =>
    intro h
    by_cases hx : x.createdAt ≤ m.createdAt
    · simp only [insertDesc, if_pos hx, List.mem_cons] at h
      rcases h with h | h | h
      · exact Or.inl h
      · exact Or.inr (by simp [h])
      · exact Or.inr (by simp [h])
    · simp only [insertDesc, if_neg hx, List.mem_cons] at h
      rcases h with h | h
      · exact Or.inr (by simp [h])
      · rcases ih h with h' | h'
        · exact Or.inl h'
        · exact Or.inr (by simp [h'])

theorem mem_sortDesc (a : Message) :
    ∀ l : List Message, a ∈ sortDesc l → a ∈ l := by
  intro l
  induction l with
  | nil => intro h; simp [sortDesc] at h
  | cons x xs ih =>
    intro h
    rcases mem_insertDesc x a (sortDesc xs) h with h' | h'
    · simp [h']
    · simp [ih h']

theorem length_insertDesc (m : Message) :
    ∀ l : List Message, (insertDesc m l).length = l.length + 1 := by
  intro l
  induction l with
  | nil => rfl
  | cons x xs ih =>
    by_cases hx : x.createdAt ≤ m.createdAt
    · simp [insertDesc, hx]
    · simp [insertDesc, hx, ih]

theorem length_sortDesc :
    ∀ l : List Message, (sortDesc l).length = l.length := by
  intro l
  induction l with
  | nil => rfl
  | cons x xs ih => simp [sortDesc, length_insertDesc, ih]

/-- Ordering relation of the list endpoint: `a` is no older than `b`. -/
def msgGE (a b : Message) : Prop := b.createdAt ≤ a.createdAt

theorem pairwise_insertDesc (m : Message) :
    ∀ l : List Message, l.Pairwise msgGE → (insertDesc m l).Pairwise msgGE := by
  intro l
  induction l with
  | nil => intro _; simp [insertDesc, msgGE]
  | cons x xs ih =>
    intro h
    rcases List.pairwise_cons.mp h with ⟨hx, hxs⟩
    by_cases hle : x.createdAt ≤ m.createdAt
    · simp only [insertDesc, if_pos hle]
      refine List.pairwise_cons.mpr ⟨?_, h⟩
      intro b hb
      rcases List.mem_cons.mp hb with hb | hb
      · rw [hb]; exact hle
      · exact Nat.le_trans (hx b hb) hle
    · simp only [insertDesc, if_neg hle]
      refine List.pairwise_cons.mpr ⟨?_, ih hxs⟩
      intro b hb
      rcases mem_insertDesc m b xs hb with hb | hb
      · rw [hb]; exact Nat.le_of_not_le hle
      · exact hx b hb

theorem pairwise_sortDesc :
    ∀ l : List Message, (sortDesc l).Pairwise msgGE := by
  intro l
  induction l with
  | nil => simp [sortDesc]
  | cons x xs ih => exact pairwise_insertDesc x (sortDesc xs) ih

theorem not_deleted_of_mem_getMessagesQuery (store : List Message) (page limit : Nat)
    (m : Message) (h : m ∈ getMessagesQuery store page limit) : m.isDeleted = false := by
  unfold getMessagesQuery at h
  have h1 := List.drop_subset _ _ (List.take_subset _ _ h)
  have h2 := mem_sortDesc m _ h1
  have := List.of_mem_filter h2
  simpa using this

theorem not_deleted_of_mem_searchMessages (store : List Message) (q : String)
    (uid : Option String) (m : Message) (h : m ∈ searchMessages store q uid) :
    m.isDeleted = false := by
  unfold searchMessages at h
  have h2 := mem_sortDesc m _ (List.take_subset _ _ h)
  have := List.of_mem_filter h2
  simp only [Bool.and_eq_true, Bool.not_eq_true'] at this
  exact this.1

theorem findById_some_id (store : List Message) (mid : Nat) (m : Message)
    (h : findById store mid = some m) : m.id = mid := by
  have h' : List.find? (fun mm : Message => mm.id == mid) store = some m := h
  have := List.find?_some h'
  simpa using this

theorem findById_map_update (mid : Nat) (m m' : Message) (hid : m'.id = m.id) :
    ∀ store : List Message, findById store mid = some m →
      findById (store.map (fun x => if x.id == m'.id then m' else x)) mid = some m' := by
  intro store
  induction store with
  | nil => intro h; simp [findById] at h
  | cons x xs ih =>
    intro h
    by_cases hx : x.id = mid
    · have hm : x = m := by
        have h' : List.find? (fun mm : Message => mm.id == mid) (x :: xs) = some m := h
        rw [List.find?_cons_of_pos _ (by simpa using hx)] at h'
        exact Option.some.inj h'
      have hmid : m.id = mid := hm ▸ hx
      have hcond : (x.id == m'.id) = true := by simp [hx, hid, hmid]
      have hpred : (m'.id == mid) = true := by simp [hid, hmid]
      simp only [findById, List.map_cons]
      rw [if_pos hcond]
      exact List.find?_cons_of_pos _ hpred
    · have hrec : findById xs mid = some m := by
        have h' : List.find? (fun mm : Message => mm.id == mid) (x :: xs) = some m := h
        rw [List.find?_cons_of_neg _ (by simpa using hx)] at h'
        exact h'
      have hmid : m.id = mid := findById_some_id xs mid m hrec
      have hcond : (x.id == m'.id) = false := by
        rw [hid, hmid]
        simpa using hx
      simp only [findById, List.map_cons]
      rw [if_neg (by simp [hcond])]
      rw [List.find?_cons_of_neg _ (by simpa using hx)]
      exact ih hrec

theorem filter_user_of_filter_ne (u : String) :
    ∀ l : List Reaction,
      (l.filter (fun r => r.user != u)).filter (fun r => r.user == u) = [] := by
  intro l
  induction l with
  | nil => rfl
  | cons r rest ih =>
    by_cases h : r.user == u
    · have : (r.user != u) = false := by simp [bne, h]
      simp [List.filter, this, ih]
    · have h1 : (r.user != u) = true := by simp [bne]; simpa using h
      simp only [List.filter, h1]
      have h2 : (r.user == u) = false := by simpa using h
      simp [h2, ih]

theorem filter_user_addReaction (m : Message) (u e : String) (t : Nat) :
    (m.addReaction u e t).reactions.filter (fun r => r.user == u) = [⟨u, e, t⟩] := by
  unfold Message.addReaction
  simp [List.filter_append, filter_user_of_filter_ne]

/-- A simple non-deleted text message used as a concrete fixture. -/
def mkMsg (i : Nat) : Message :=
  { id := i, user := "u", content := "m", messageType := "text", isEdited := false,
    editedAt := none, isDeleted := false, deletedAt := none, reactions := [],
    replyTo := none, mentions := [], createdAt := i }

def demoOwner : UserRec := ⟨"u", "Owner", "user", true⟩

def demoStore : List Message := (List.range 120).map mkMsg

/-- C10: in the Session Registry, a disconnect of a stale connection handle
removes the registry entry keyed by the user, so after bind(u, c1),
bind(u, c2) and a disconnect of c1, lookup(u) returns nothing even though
c2 is still recorded as connected in the socket-to-user map. -/
theorem disconnect_removes_entry_keyed_by_user (reg : Registry) (u c1 c2 : String)
    (h : c1 ≠ c2) :
    lookupUser (disconnectConnection (bindConnection (bindConnection reg u c1) u c2) u c1) u
        = none
    ∧ mapGet (disconnectConnection (bindConnection (bindConnection reg u c1) u c2)
        u c1).userSockets c2 = some u := by
  constructor
  · simp only [lookupUser, disconnectConnection]
    exact mapGet_delete_self u _
  · simp only [disconnectConnection, bindConnection]
    rw [mapGet_delete_ne c2 c1 (Ne.symm h)]
    exact mapGet_set_self c2 u _

theorem disconnect_removes_entry_keyed_by_user_witness :
    (("s1" : String) ≠ "s2")
    ∧ (lookupUser (disconnectConnection (bindConnection (bindConnection ⟨[], []⟩ "u" "s1")
          "u" "s2") "u" "s1") "u" = none
      ∧ mapGet (disconnectConnection (bindConnection (bindConnection ⟨[], []⟩ "u" "s1")
          "u" "s2") "u" "s1").userSockets "s2" = some "u") :=
  ⟨by decide, disconnect_removes_entry_keyed_by_user ⟨[], []⟩ "u" "s1" "s2" (by decide)⟩

/-- C2: a connection attempt whose credential verifies but whose embedded
subject resolves to a missing user or an inactive user is refused: no
registry entry is written, no room is joined, no presence broadcast
occurs. -/
theorem missing_or_inactive_user_connection_refused (users : List UserRec)
    (reg : Registry) (uid sid : String)
    (h : findUserById users uid = none
      ∨ ∃ u, findUserById users uid = some u ∧ u.isActive = false) :
    connectionAttempt users reg (Credential.signed uid) sid = ⟨reg, [], [], false⟩ := by
  rcases h with h | ⟨u, hu, hact⟩
  · simp [connectionAttempt, socketAuth, h]
  · simp [connectionAttempt, socketAuth, hu, hact]

theorem missing_or_inactive_user_connection_refused_witness :
    (findUserById [⟨"u1", "Ann", "user", false⟩] "u1" = none
      ∨ ∃ u, findUserById [⟨"u1", "Ann", "user", false⟩] "u1" = some u
          ∧ u.isActive = false)
    ∧ connectionAttempt [⟨"u1", "Ann", "user", false⟩] ⟨[], []⟩
        (Credential.signed "u1") "s1" = ⟨⟨[], []⟩, [], [], false⟩ :=
  ⟨Or.inr ⟨⟨"u1", "Ann", "user", false⟩, by decide, rfl⟩,
   missing_or_inactive_user_connection_refused [⟨"u1", "Ann", "user", false⟩] ⟨[], []⟩
     "u1" "s1" (Or.inr ⟨⟨"u1", "Ann", "user", false⟩, by decide, rfl⟩)⟩

/-- C3 (code bug): the schema's messageType enum omits "private", so the
private_message handler's save fails schema validation on an otherwise
valid private message; nothing is persisted, no delivery to the recipient
and no confirmation echo happen — only a generic error is emitted, even
though the recipient has a registered connection. -/
theorem private_message_rejected_by_schema_enum :
    validMessageTypes.contains "private" = false
    ∧ strLen (trimStr "hi") = 2 ∧ strLen "hi" = 2
    ∧ privateMessageSocket [] [("u2", "s2")] "u1" "u2" "hi" 1 0
        = ⟨[], [], [Event.errorMsg "Failed to send private message"], []⟩ := by
  refine ⟨rfl, rfl, rfl, ?_⟩
  rfl

/-- Helper for C6: folding a non-empty run of addReaction calls by one user
leaves exactly that user's latest reaction. -/
theorem addReaction_fold_aux (u : String) :
    ∀ (ops : List (String × Nat)) (e : String × Nat) (m : Message),
      (((e :: ops).foldl (fun acc p => acc.addReaction u p.1 p.2) m).reactions.filter
          (fun r => r.user == u))
        = [⟨u, ((e :: ops).getLast (List.cons_ne_nil e ops)).1,
              ((e :: ops).getLast (List.cons_ne_nil e ops)).2⟩] := by
  intro ops
  induction ops with
  | nil =>
    intro e m
    simp only [List.foldl]
    rw [filter_user_addReaction]
    rfl
  | cons e2 rest ih =>
    intro e m
    have hlast : ((e :: e2 :: rest).getLast (List.cons_ne_nil e (e2 :: rest)))
        = ((e2 :: rest).getLast (List.cons_ne_nil e2 rest)) :=
      List.getLast_cons (List.cons_ne_nil e2 rest)
    rw [hlast]
    exact ih e2 (m.addReaction u e.1 e.2)

/-- C6: after any non-empty sequence of addReaction operations by user u on
a message, the reaction list holds exactly one entry for u and it bears the
emoji (and timestamp) of the latest operation. -/
theorem addReaction_singleton_latest (m : Message) (u : String)
    (ops : List (String × Nat)) (h : ops ≠ []) :
    ((ops.foldl (fun acc p => acc.addReaction u p.1 p.2) m).reactions.filter
        (fun r => r.user == u))
      = [⟨u, (ops.getLast h).1, (ops.getLast h).2⟩] := by
  cases ops with
  | nil => exact absurd rfl h
  | cons e rest => exact addReaction_fold_aux u rest e m

theorem addReaction_singleton_latest_witness :
    (([("x", 1), ("y", 2)] : List (String × Nat)) ≠ [])
    ∧ ((([("x", 1), ("y", 2)] : List (String × Nat)).foldl
          (fun acc p => acc.addReaction "u9" p.1 p.2) (mkMsg 1)).reactions.filter
          (fun r => r.user == "u9"))
        = [⟨"u9", (([("x", 1), ("y", 2)] : List (String × Nat)).getLast (by decide)).1,
              (([("x", 1), ("y", 2)] : List (String × Nat)).getLast (by decide)).2⟩] :=
  ⟨by decide, addReaction_singleton_latest (mkMsg 1) "u9" [("x", 1), ("y", 2)] (by decide)⟩

/-- C7 (counterexample): a Send whose reply-target references no existing
message succeeds and persists the message, on both channels — the reference
is never checked. -/
theorem send_with_missing_replyTo_persists :
    findById [] 99 = none
    ∧ sendMessageRest [] "u1" "hello" "text" (some 99) 1 0
        = ⟨[⟨1, "u1", "hello", "text", false, none, false, none, [], some 99, [], 0⟩],
            201, none⟩
    ∧ sendMessageSocket [] "u1" "hello" "text" (some 99) 1 0
        = ⟨[⟨1, "u1", "hello", "text", false, none, false, none, [], some 99, [], 0⟩],
            [Event.newMessage 1], [Event.messageSent 1], []⟩ := by
  refine ⟨rfl, ?_, ?_⟩ <;> rfl

/-- Handler-valid content passes schema validation of the new document. -/
theorem validateMessage_new_trimmed (sender content mt : String) (rt : Option Nat)
    (newId now : Nat) (hmt : validMessageTypes.contains mt = true)
    (h1 : strLen (trimStr content) ≠ 0) (h2 : strLen content ≤ 1000) :
    validateMessage (presaveMentions (mkNewMessage sender content mt rt newId now)) = true := by
  have hne : (trimStr content != "") = true := by
    rw [bne_iff_ne]
    intro he
    apply h1
    rw [he]
    rfl
  have hle : strLen (trimStr content) ≤ 1000 :=
    Nat.le_trans (strLen_trimStr_le content) h2
  have hgoal : (validMessageTypes.contains mt && (trimStr content != "")
      && decide (strLen (trimStr content) ≤ 1000)) = true := by
    rw [Bool.and_eq_true, Bool.and_eq_true]
    exact ⟨⟨hmt, hne⟩, decide_eq_true hle⟩
  exact hgoal

/-- C7 (amended): a Send carrying a reply-target stores the reference
exactly as supplied, with no check that it names an existing message; with
valid content the operation succeeds on both channels regardless of
whether the reply-target exists. -/
theorem send_stores_replyTo_unchecked (store : List Message) (sender content : String)
    (rt : Nat) (newId now : Nat)
    (h1 : strLen (trimStr content) ≠ 0) (h2 : strLen content ≤ 1000) :
    ∃ msg, msg.replyTo = some rt
      ∧ sendMessageRest store sender content "text" (some rt) newId now
          = ⟨store ++ [msg], 201, none⟩
      ∧ sendMessageSocket store sender content "text" (some rt) newId now
          = ⟨store ++ [msg], [Event.newMessage newId], [Event.messageSent newId], []⟩ := by
  have h2' : ¬ (1000 < strLen content) := Nat.not_lt.mpr h2
  have hval := validateMessage_new_trimmed sender content "text" (some rt) newId now rfl h1 h2
  refine ⟨presaveMentions (mkNewMessage sender content "text" (some rt) newId now),
    rfl, ?_, ?_⟩
  · unfold sendMessageRest
    rw [if_neg h1, if_neg h2']
    simp [saveNew, hval]
  · unfold sendMessageSocket
    rw [if_neg h1, if_neg h2']
    simp [saveNew, hval]

theorem send_stores_replyTo_unchecked_witness :
    strLen (trimStr "hey") ≠ 0 ∧ strLen "hey" ≤ 1000
    ∧ ∃ msg, msg.replyTo = some 77
      ∧ sendMessageRest [] "u1" "hey" "text" (some 77) 5 3 = ⟨[] ++ [msg], 201, none⟩
      ∧ sendMessageSocket [] "u1" "hey" "text" (some 77) 5 3
          = ⟨[] ++ [msg], [Event.newMessage 5], [Event.messageSent 5], []⟩ :=
  ⟨by decide, by decide,
   send_stores_replyTo_unchecked [] "u1" "hey" 77 5 3 (by decide) (by decide)⟩

/-- C9 (code bug): the pre-save hook does compute the @-word tokens of the
content, but the schema types `mentions` as an array of ObjectId refs, so
an ordinary token such as "bob" fails the ObjectId cast and the hook's
assignment is dropped: the Send still persists (status 201, message
broadcast), yet the stored mention list is empty instead of the extracted
tokens the claim requires. -/
theorem mentions_tokens_dropped_by_objectId_cast :
    extractMentions (trimStr "hi @bob") = ["bob"]
    ∧ castableObjectId "bob" = false
    ∧ (sendMessageRest [] "u1" "hi @bob" "text" none 5 3).status = 201
    ∧ ((sendMessageRest [] "u1" "hi @bob" "text" none 5 3).store.map
        (fun m => m.mentions)) = [[]]
    ∧ ((sendMessageSocket [] "u1" "hi @bob" "text" none 5 3).store.map
        (fun m => m.mentions)) = [[]] := by
  exact ⟨rfl, rfl, rfl, rfl, rfl⟩

/-- C1: an authenticated user with role "user" who does not own a message
gets an authorization failure from Edit and Soft-delete on both the live
channel and the REST mirror, and the store is left entirely unchanged. -/
theorem nonOwner_user_edit_delete_forbidden (store : List Message) (u : UserRec)
    (m : Message) (mid now : Nat) (content : String)
    (hm : findById store mid = some m) (hne : m.user ≠ u.id) (hrole : u.role = "user")
    (h1 : strLen (trimStr content) ≠ 0) (h2 : strLen content ≤ 1000) :
    editMessageSocket store u mid content now
        = ⟨store, [], [Event.errorMsg "You can only edit your own messages"], []⟩
    ∧ editMessageRest store u mid content now = ⟨store, 403, some "Access denied"⟩
    ∧ deleteMessageSocket store u mid now
        = ⟨store, [], [Event.errorMsg "You can only delete your own messages"], []⟩
    ∧ deleteMessageRest store u mid now = ⟨store, 403, some "Access denied"⟩ := by
  have hadmin : u.role ≠ "admin" := by rw [hrole]; decide
  have hcond : m.user ≠ u.id ∧ u.role ≠ "admin" := ⟨hne, hadmin⟩
  have h2' : ¬ (1000 < strLen content) := Nat.not_lt.mpr h2
  refine ⟨?_, ?_, ?_, ?_⟩
  · unfold editMessageSocket
    rw [if_neg h1, if_neg h2', hm]
    simp [hcond]
  · unfold editMessageRest
    rw [if_neg h1, if_neg h2', hm]
    simp [hcond]
  · unfold deleteMessageSocket
    rw [hm]
    simp [hcond]
  · unfold deleteMessageRest
    rw [hm]
    simp [hcond]

theorem nonOwner_user_edit_delete_forbidden_witness :
    findById [mkMsg 1] 1 = some (mkMsg 1)
    ∧ (mkMsg 1).user ≠ "other" ∧ ("user" : String) = "user"
    ∧ strLen (trimStr "new text") ≠ 0 ∧ strLen "new text" ≤ 1000
    ∧ (editMessageSocket [mkMsg 1] ⟨"other", "Eve", "user", true⟩ 1 "new text" 7
        = ⟨[mkMsg 1], [], [Event.errorMsg "You can only edit your own messages"], []⟩
      ∧ editMessageRest [mkMsg 1] ⟨"other", "Eve", "user", true⟩ 1 "new text" 7
          = ⟨[mkMsg 1], 403, some "Access denied"⟩
      ∧ deleteMessageSocket [mkMsg 1] ⟨"other", "Eve", "user", true⟩ 1 7
          = ⟨[mkMsg 1], [], [Event.errorMsg "You can only delete your own messages"], []⟩
      ∧ deleteMessageRest [mkMsg 1] ⟨"other", "Eve", "user", true⟩ 1 7
          = ⟨[mkMsg 1], 403, some "Access denied"⟩) :=
  ⟨by decide, by decide, rfl, by decide, by decide,
   nonOwner_user_edit_delete_forbidden [mkMsg 1] ⟨"other", "Eve", "user", true⟩ (mkMsg 1)
     1 7 "new text" (by decide) (by decide) rfl (by decide) (by decide)⟩

/-- Sender-visible shape of a content-validation failure on the live
channel: exactly one of the two validation error messages, and nothing
else, is emitted back. -/
def isContentValidationError (evs : List Event) : Prop :=
  evs = [Event.errorMsg "Message content is required"]
    ∨ evs = [Event.errorMsg "Message content cannot exceed 1000 characters"]

/-- C4: content that is empty after trimming or longer than 1000 characters
makes Send and Edit fail validation on both channels: the store is
unchanged, nothing is broadcast to the room, and the caller gets a
validation error. -/
theorem invalid_content_rejected (store : List Message) (u : UserRec) (content : String)
    (rt : Option Nat) (mid newId now : Nat)
    (h : strLen (trimStr content) = 0 ∨ 1000 < strLen content) :
    ((sendMessageSocket store u.id content "text" rt newId now).store = store
      ∧ (sendMessageSocket store u.id content "text" rt newId now).room = []
      ∧ isContentValidationError
          (sendMessageSocket store u.id content "text" rt newId now).toSender)
    ∧ sendMessageRest store u.id content "text" rt newId now
        = ⟨store, 400, some "Validation error"⟩
    ∧ ((editMessageSocket store u mid content now).store = store
      ∧ (editMessageSocket store u mid content now).room = []
      ∧ isContentValidationError (editMessageSocket store u mid content now).toSender)
    ∧ editMessageRest store u mid content now = ⟨store, 400, some "Validation error"⟩ := by
  by_cases h0 : strLen (trimStr content) = 0
  · refine ⟨⟨?_, ?_, ?_⟩, ?_, ⟨?_, ?_, ?_⟩, ?_⟩ <;>
      simp [sendMessageSocket, sendMessageRest, editMessageSocket, editMessageRest,
        isContentValidationError, h0]
  · have hlt : 1000 < strLen content := h.resolve_left h0
    refine ⟨⟨?_, ?_, ?_⟩, ?_, ⟨?_, ?_, ?_⟩, ?_⟩ <;>
      simp [sendMessageSocket, sendMessageRest, editMessageSocket, editMessageRest,
        isContentValidationError, h0, hlt]

theorem invalid_content_rejected_witness :
    (strLen (trimStr "  ") = 0 ∨ 1000 < strLen "  ")
    ∧ (((sendMessageSocket [] demoOwner.id "  " "text" none 9 4).store = []
        ∧ (sendMessageSocket [] demoOwner.id "  " "text" none 9 4).room = []
        ∧ isContentValidationError
            (sendMessageSocket [] demoOwner.id "  " "text" none 9 4).toSender)
      ∧ sendMessageRest [] demoOwner.id "  " "text" none 9 4
          = ⟨[], 400, some "Validation error"⟩
      ∧ ((editMessageSocket [] demoOwner 1 "  " 4).store = []
        ∧ (editMessageSocket [] demoOwner 1 "  " 4).room = []
        ∧ isContentValidationError (editMessageSocket [] demoOwner 1 "  " 4).toSender)
      ∧ editMessageRest [] demoOwner 1 "  " 4 = ⟨[], 400, some "Validation error"⟩) :=
  ⟨Or.inl rfl, invalid_content_rejected [] demoOwner "  " none 1 9 4 (Or.inl rfl)⟩

/-- One owner-invoked REST soft delete: authorization passes and the
soft-deleted document is written back over every stored copy of its id. -/
theorem deleteRest_owner_step (store : List Message) (u : UserRec) (m : Message)
    (mid t : Nat) (hm : findById store mid = some m) (hown : m.user = u.id)
    (hv : validateMessage m = true) :
    deleteMessageRest store u mid t
      = ⟨store.map (fun x => if x.id == (m.softDelete t).id then m.softDelete t else x),
          200, none⟩ := by
  have hval : validateMessage (m.softDelete t) = true := hv
  have hcond : ¬ (m.user ≠ u.id ∧ u.role ≠ "admin") := fun hc => hc.1 hown
  unfold deleteMessageRest
  rw [hm]
  simp [hcond, saveUpdated, hval]

/-- C5 (counterexample): soft delete does not set the deleted-timestamp
exactly once — deleting the same message a second time through the REST
route overwrites the timestamp with the later delete's time. -/
theorem second_delete_changes_deletedAt :
    ((deleteMessageRest [mkMsg 1] demoOwner 1 5).store.map (fun m => m.deletedAt))
        = [some 5]
    ∧ ((deleteMessageRest (deleteMessageRest [mkMsg 1] demoOwner 1 5).store
          demoOwner 1 9).store.map (fun m => m.deletedAt)) = [some 9] := by
  refine ⟨?_, ?_⟩ <;> rfl

/-- C5 (amended): soft-deleting sets the soft-deleted flag and the
deleted-timestamp to the time of that delete, makes the message absent from
List and Search while it stays retrievable by id lookup; a second delete of
the same message keeps the flag set but refreshes the deleted-timestamp to
the second delete's time. -/
theorem softDelete_lifecycle (store : List Message) (u : UserRec) (m : Message)
    (mid t1 t2 : Nat) (hm : findById store mid = some m) (hown : m.user = u.id)
    (hv : validateMessage m = true) :
    ∃ store1 m1, deleteMessageRest store u mid t1 = ⟨store1, 200, none⟩
      ∧ findById store1 mid = some m1
      ∧ m1.isDeleted = true ∧ m1.deletedAt = some t1
      ∧ (∀ page limit, m1 ∉ getMessagesQuery store1 page limit)
      ∧ (∀ q uid, m1 ∉ searchMessages store1 q uid)
      ∧ ∃ store2 m2, deleteMessageRest store1 u mid t2 = ⟨store2, 200, none⟩
          ∧ findById store2 mid = some m2 ∧ m2.deletedAt = some t2 := by
  have hstep1 : deleteMessageRest store u mid t1
      = ⟨store.map (fun x => if x.id == (m.softDelete t1).id then m.softDelete t1 else x),
          200, none⟩ :=
    deleteRest_owner_step store u m mid t1 hm hown hv
  have hfind1 : findById
      (store.map (fun x => if x.id == (m.softDelete t1).id then m.softDelete t1 else x))
      mid = some (m.softDelete t1) :=
    findById_map_update mid m (m.softDelete t1) rfl store hm
  have hlist1 : ∀ page limit, (m.softDelete t1) ∉ getMessagesQuery
      (store.map (fun x => if x.id == (m.softDelete t1).id then m.softDelete t1 else x))
      page limit := by
    intro page limit hmem
    have hfalse := not_deleted_of_mem_getMessagesQuery _ page limit _ hmem
    simp [Message.softDelete] at hfalse
  have hsearch1 : ∀ q uid, (m.softDelete t1) ∉ searchMessages
      (store.map (fun x => if x.id == (m.softDelete t1).id then m.softDelete t1 else x))
      q uid := by
    intro q uid hmem
    have hfalse := not_deleted_of_mem_searchMessages _ q uid _ hmem
    simp [Message.softDelete] at hfalse
  have hstep2 := deleteRest_owner_step _ u (m.softDelete t1) mid t2 hfind1 hown hv
  have hfind2 := findById_map_update mid (m.softDelete t1) ((m.softDelete t1).softDelete t2)
    rfl _ hfind1
  exact ⟨_, m.softDelete t1, hstep1, hfind1, rfl, rfl, hlist1, hsearch1,
    _, (m.softDelete t1).softDelete t2, hstep2, hfind2, rfl⟩

theorem softDelete_lifecycle_witness :
    findById [mkMsg 1] 1 = some (mkMsg 1)
    ∧ (mkMsg 1).user = demoOwner.id ∧ validateMessage (mkMsg 1) = true
    ∧ ∃ store1 m1, deleteMessageRest [mkMsg 1] demoOwner 1 5 = ⟨store1, 200, none⟩
      ∧ findById store1 1 = some m1
      ∧ m1.isDeleted = true ∧ m1.deletedAt = some 5
      ∧ (∀ page limit, m1 ∉ getMessagesQuery store1 page limit)
      ∧ (∀ q uid, m1 ∉ searchMessages store1 q uid)
      ∧ ∃ store2 m2, deleteMessageRest store1 demoOwner 1 9 = ⟨store2, 200, none⟩
          ∧ findById store2 1 = some m2 ∧ m2.deletedAt = some 9 :=
  ⟨by decide, rfl, by decide,
   softDelete_lifecycle [mkMsg 1] demoOwner (mkMsg 1) 1 5 9 (by decide) rfl (by decide)⟩

theorem demoStore_filter_length :
    (demoStore.filter (fun m => !m.isDeleted)).length = 120 := by
  have h : ∀ a ∈ demoStore, (!a.isDeleted) = true := by
    intro a ha
    unfold demoStore at ha
    rcases List.mem_map.mp ha with ⟨i, _, rfl⟩
    rfl
  rw [List.filter_eq_self.mpr h]
  unfold demoStore
  rw [List.length_map, List.length_range]

/-- C8: over a dataset with 120 non-deleted messages, pages 1 and 2 of the
list endpoint (limit 50, each page fetched newest-first then reversed to
oldest-first) partition the 100 newest messages: undoing the per-page
reversal and concatenating gives exactly the first 100 entries of the
newest-first ordering, each page holding exactly 50, and that ordering is
sorted by descending creation time. -/
theorem list_pagination_partitions (store : List Message)
    (h120 : (store.filter (fun m => !m.isDeleted)).length = 120) :
    (listMessagesRest store 1 50).reverse ++ (listMessagesRest store 2 50).reverse
        = (sortDesc (store.filter (fun m => !m.isDeleted))).take 100
    ∧ (listMessagesRest store 1 50).length = 50
    ∧ (listMessagesRest store 2 50).length = 50
    ∧ (sortDesc (store.filter (fun m => !m.isDeleted))).Pairwise msgGE := by
  have hSlen : (sortDesc (store.filter (fun m => !m.isDeleted))).length = 120 := by
    rw [length_sortDesc]
    exact h120
  refine ⟨?_, ?_, ?_, pairwise_sortDesc _⟩
  · simp only [listMessagesRest, List.reverse_reverse, getMessagesQuery]
    norm_num
    rw [show (100 : Nat) = 50 + 50 from rfl, List.take_add]
  · simp only [listMessagesRest, List.length_reverse, getMessagesQuery]
    norm_num
    rw [hSlen]
    norm_num
  · simp only [listMessagesRest, List.length_reverse, getMessagesQuery]
    norm_num
    rw [hSlen]
    norm_num

theorem list_pagination_partitions_witness :
    (demoStore.filter (fun m => !m.isDeleted)).length = 120
    ∧ ((listMessagesRest demoStore 1 50).reverse
          ++ (listMessagesRest demoStore 2 50).reverse
        = (sortDesc (demoStore.filter (fun m => !m.isDeleted))).take 100
      ∧ (listMessagesRest demoStore 1 50).length = 50
      ∧ (listMessagesRest demoStore 2 50).length = 50
      ∧ (sortDesc (demoStore.filter (fun m => !m.isDeleted))).Pairwise msgGE) :=
  ⟨demoStore_filter_length,
   list_pagination_partitions demoStore demoStore_filter_length⟩
